import Mathlib

/-!
# Mood-journal backend: shallow embedding and verification

This file embeds the two near-identical Express/PostgreSQL variants of the
mood-journal backend (variant A = `app.js`, variant B = the unnamed server
file) as pure Lean functions and proves properties of the request handlers.

Modelling conventions:
* Database state is explicit: the `users`/`user1` tables are `List UserRow`,
  the `moods` table is `List MoodRow`; `NOW()` is an explicit `now : Int`
  parameter measured in seconds, so `INTERVAL 'k days'` subtracts
  `k * ticksPerDay`.
* Missing request fields are `Option String` with `none`; JavaScript
  truthiness of a string field (`!email`) is `truthy`.
* `parseInt` is modelled by `jsParseInt` (whitespace and sign handling,
  longest digit prefix, `0x` hex prefix, `none` for `NaN`).
* JavaScript objects used as string-keyed counters are association lists
  updated in insertion order (`bumpCount`).
* HTTP responses are `Resp` (status code plus `message`) or, for the
  endpoints that return data, small inductives carrying the payload.
-/

set_option autoImplicit false

namespace MoodJournal

/-- A row of the `users` / `user1` table: `(email, password)`. -/
structure UserRow where
  email : String
  password : String
deriving DecidableEq, Repr

/-- A row of the `moods` table. `created_at` is the server-assigned
timestamp (seconds). -/
structure MoodRow where
  email : String
  mood : String
  triggers : List String
  created_at : Int
deriving DecidableEq, Repr

/-- A record of the history response: `SELECT mood, triggers, created_at`
projects the owner email away. -/
structure HistRow where
  mood : String
  triggers : List String
  created_at : Int
deriving DecidableEq, Repr

/-- A plain JSON response: HTTP status code and the `message` field. -/
structure Resp where
  status : Nat
  message : String
deriving DecidableEq, Repr

/-- Seconds per day: the scale of `INTERVAL '1 day'` in the time model. -/
def ticksPerDay : Int := 86400

/-- JavaScript truthiness of an optional string field: `undefined` and the
empty string are falsy, every other string is truthy. -/
def truthy : Option String → Bool
  | none => false
  | some s => s ≠ ""

/-! ## `parseInt` -/

/-- Numeric value of a decimal digit character. -/
def decDigitVal (c : Char) : Nat := c.toNat - 48

/-- Hexadecimal digit characters. -/
def isHexDigit (c : Char) : Bool :=
  c.isDigit || ('a' ≤ c && c ≤ 'f') || ('A' ≤ c && c ≤ 'F')

/-- Numeric value of a hexadecimal digit character. -/
def hexDigitVal (c : Char) : Nat :=
  if c.isDigit then c.toNat - 48
  else if 'a' ≤ c && c ≤ 'f' then c.toNat - 87
  else c.toNat - 55

/-- Longest prefix of characters satisfying `p`, read as a base-`b` numeral;
`none` when the prefix is empty (JavaScript `NaN`). -/
def digitsPrefixVal (b : Nat) (p : Char → Bool) (v : Char → Nat) (cs : List Char) :
    Option Nat :=
  let ds := cs.takeWhile p
  if ds.isEmpty then none else some (ds.foldl (fun a c => a * b + v c) 0)

/-- The unsigned part of `parseInt`: a `0x`/`0X` prefix switches to base 16,
otherwise the longest decimal digit prefix is read. -/
def parseUnsigned : List Char → Option Nat
  | '0' :: 'x' :: rest => digitsPrefixVal 16 isHexDigit hexDigitVal rest
  | '0' :: 'X' :: rest => digitsPrefixVal 16 isHexDigit hexDigitVal rest
  | cs => digitsPrefixVal 10 Char.isDigit decDigitVal cs

/-- Characters `parseInt` strips from the front of its argument. -/
def isJsSpace (c : Char) : Bool :=
  c == ' ' || c == '\t' || c == '\n' || c == '\r' || c == '\x0b' || c == '\x0c'

/-- JavaScript `parseInt(s)` with no radix argument; `none` models `NaN`. -/
def jsParseInt (s : String) : Option Int :=
  match s.toList.dropWhile isJsSpace with
  | '-' :: rest => (parseUnsigned rest).map (fun n => -(n : Int))
  | '+' :: rest => (parseUnsigned rest).map (fun n => (n : Int))
  | cs => (parseUnsigned cs).map (fun n => (n : Int))

/-! ## Signup and login -/

/-- `POST /api/auth/signup`, variant A (`app.js`): the existence check and
the insert both use the `users` table. Returns the response and the updated
table. -/
def signupA (users : List UserRow) (email? password? : Option String) :
    Resp × List UserRow :=
  if !truthy email? || !truthy password? then
    (⟨400, "Email and password required"⟩, users)
  else
    let email := email?.getD ""
    let password := password?.getD ""
    if (users.filter (fun u => u.email == email)).length > 0 then
      (⟨400, "User already exists"⟩, users)
    else
      (⟨201, "User registered successfully"⟩, users ++ [⟨email, password⟩])

/-- The two account tables of variant B: the signup existence check reads
`users`, but the insert and the login query use `user1`. -/
structure DbB where
  users : List UserRow
  user1 : List UserRow
deriving DecidableEq, Repr

/-- `POST /api/auth/signup`, variant B: `SELECT * FROM users WHERE email = $1`
for the existence check, then `INSERT INTO user1 (email, password)`. -/
def signupB (db : DbB) (email? password? : Option String) : Resp × DbB :=
  if !truthy email? || !truthy password? then
    (⟨400, "Email and password required"⟩, db)
  else
    let email := email?.getD ""
    let password := password?.getD ""
    if (db.users.filter (fun u => u.email == email)).length > 0 then
      (⟨400, "User already exists"⟩, db)
    else
      (⟨201, "User registered successfully"⟩,
        { db with user1 := db.user1 ++ [⟨email, password⟩] })

/-- The body shared by both login handlers: select the rows matching the
email, take `rows[0]`, compare the stored password with `!==`. -/
def loginCheck (records : List UserRow) (email? password? : Option String) :
    Resp :=
  if !truthy email? || !truthy password? then
    ⟨400, "Email and password required"⟩
  else
    let email := email?.getD ""
    let password := password?.getD ""
    let rows := records.filter (fun u => u.email == email)
    if rows.length == 0 then
      ⟨400, "User not found. Please sign up first."⟩
    else
      let user := rows.headD ⟨"", ""⟩
      if user.password != password then ⟨401, "Incorrect password"⟩
      else ⟨200, "Login successful"⟩

/-- `POST /api/auth/login`, variant A: reads the `users` table. -/
def loginA (users : List UserRow) (email? password? : Option String) : Resp :=
  loginCheck users email? password?

/-- `POST /api/auth/login`, variant B: reads the `user1` table. -/
def loginB (db : DbB) (email? password? : Option String) : Resp :=
  loginCheck db.user1 email? password?

/-! ## Saving a mood entry -/

/-- `POST /api/mood` (identical in both variants): requires truthy `email`
and `mood`, defaults `triggers || []`, inserts with `created_at = NOW()`. -/
def saveMood (moods : List MoodRow) (now : Int)
    (email? mood? : Option String) (triggers? : Option (List String)) :
    Resp × List MoodRow :=
  if !truthy email? || !truthy mood? then
    (⟨400, "Email and mood are required"⟩, moods)
  else
    (⟨201, "Mood saved successfully"⟩,
      moods ++ [⟨email?.getD "", mood?.getD "", triggers?.getD [], now⟩])

/-! ## History query -/

/-- JavaScript `String.prototype.trim()`: strip whitespace from both ends
(implemented on the character list so it is kernel-computable). -/
def jsTrim (s : String) : String :=
  ⟨((s.data.dropWhile isJsSpace).reverse.dropWhile isJsSpace).reverse⟩

/-- JavaScript `s.split(',')`: split at every comma, keeping empty pieces
(so `"".split(',')` is `[""]` and `"a,".split(',')` is `["a", ""]`). -/
def jsSplitCommaAux : List Char → List Char → List (List Char)
  | [], acc => [acc.reverse]
  | c :: cs, acc =>
    if c == ',' then acc.reverse :: jsSplitCommaAux cs []
    else jsSplitCommaAux cs (c :: acc)

/-- JavaScript `s.split(',')` as a `String` operation. -/
def jsSplitComma (s : String) : List String :=
  (jsSplitCommaAux s.data []).map (fun cs => ⟨cs⟩)

/-- Parsing of the optional `triggers` query parameter: split on commas,
trim each piece, keep the non-empty ones; a falsy parameter yields `[]`. -/
def parseTriggersParam : Option String → List String
  | none => []
  | some s =>
    if s = "" then []
    else ((jsSplitComma s).map jsTrim).filter (fun t => t.length > 0)

/-- PostgreSQL array overlap `a && b`: the arrays share an element. -/
def arrayOverlap (a b : List String) : Bool :=
  a.any (fun t => b.contains t)

/-- The `WHERE` clause of the history query as built by the handler: the
base clause on email and date, with `AND triggers && $2::text[]` appended
only when the parsed trigger filter is non-empty. -/
def historyWhere (email : String) (cutoff : Int) (filt : List String)
    (r : MoodRow) : Bool :=
  if filt.length > 0 then
    (r.email == email && decide (cutoff ≤ r.created_at)) &&
      arrayOverlap r.triggers filt
  else
    r.email == email && decide (cutoff ≤ r.created_at)

/-- Projection performed by `SELECT mood, triggers, created_at`. -/
def projRow (r : MoodRow) : HistRow :=
  ⟨r.mood, r.triggers, r.created_at⟩

/-- Insert a row into a list kept in descending `created_at` order
(`ORDER BY created_at DESC`; ties in arbitrary order). -/
def insertDesc (r : MoodRow) : List MoodRow → List MoodRow
  | [] => [r]
  | x :: xs =>
    if r.created_at ≤ x.created_at then x :: insertDesc r xs
    else r :: x :: xs

/-- Sort rows by `created_at` descending. -/
def sortDesc (l : List MoodRow) : List MoodRow :=
  l.foldr insertDesc []

/-- One step of the `triggerCounts` loop:
`triggerCounts[trigger] = (triggerCounts[trigger] || 0) + 1` on an object
represented as an association list in key-insertion order. -/
def bumpCount (m : List (String × Nat)) (t : String) : List (String × Nat) :=
  if m.any (fun p => p.1 == t) then
    m.map (fun p => if p.1 == t then (p.1, p.2 + 1) else p)
  else
    m ++ [(t, 1)]

/-- The `triggerCounts` object: for each returned entry, for each element of
its `triggers` array, increment that key. -/
def triggerCounts (rows : List HistRow) : List (String × Nat) :=
  rows.foldl (fun m r => r.triggers.foldl bumpCount m) []

/-- Reading `obj[t] || 0` from the counter object. -/
def lookupD (m : List (String × Nat)) (t : String) : Nat :=
  match m.find? (fun p => p.1 == t) with
  | some p => p.2
  | none => 0

/-- The result of the SQL query plus the aggregation step: the filtered rows
ordered newest-first and projected, with the frequency table computed from
that result list. -/
def historyQuery (st : List MoodRow) (now : Int) (email : String)
    (daysInt : Int) (filt : List String) :
    List HistRow × List (String × Nat) :=
  let cutoff := now - daysInt * ticksPerDay
  let moodHistory := (sortDesc (st.filter (historyWhere email cutoff filt))).map projRow
  (moodHistory, triggerCounts moodHistory)

/-- Responses of `GET /api/mood/history`. -/
inductive HResp where
  | err (status : Nat) (message : String)
  | ok (moodHistory : List HistRow) (triggerCounts : List (String × Nat))
deriving DecidableEq, Repr

/-- `GET /api/mood/history` (identical in both variants): field presence
check, `parseInt` of `days` with the range check, trigger-filter parsing,
then the query. -/
def historyHandler (st : List MoodRow) (now : Int)
    (email? days? triggers? : Option String) : HResp :=
  if !truthy email? || !truthy days? then
    .err 400 "Missing email or days parameter"
  else
    match jsParseInt (days?.getD "") with
    | none => .err 400 "Invalid days parameter. Must be between 1 and 365."
    | some daysInt =>
      if daysInt ≤ 0 || daysInt > 365 then
        .err 400 "Invalid days parameter. Must be between 1 and 365."
      else
        let filt := parseTriggersParam triggers?
        let q := historyQuery st now (email?.getD "") daysInt filt
        .ok q.1 q.2

/-- The text interpolated into the SQL template by
`INTERVAL '${daysInt} days'`: the JavaScript number printed in decimal,
followed by `" days"`. -/
def intervalLiteral (daysInt : Int) : String :=
  toString daysInt ++ " days"

/-- The full query text built by the handler (whitespace normalised), with
the overlap clause present exactly when the parsed filter is non-empty. -/
def historyQueryText (daysInt : Int) (hasTriggerClause : Bool) : String :=
  "SELECT mood, triggers, created_at FROM moods WHERE email = $1 " ++
    "AND created_at >= NOW() - INTERVAL '" ++ intervalLiteral daysInt ++ "'" ++
    (if hasTriggerClause then " AND triggers && $2::text[]" else "") ++
    " ORDER BY created_at DESC"

/-! ## Lemmas about the filter predicate -/

theorem arrayOverlap_iff (a b : List String) :
    arrayOverlap a b = true ↔ ∃ t ∈ a, t ∈ b := by
  simp [arrayOverlap, List.any_eq_true]

theorem historyWhere_iff (email : String) (cutoff : Int) (filt : List String)
    (r : MoodRow) :
    historyWhere email cutoff filt r = true ↔
      r.email = email ∧ cutoff ≤ r.created_at ∧
        (filt = [] ∨ ∃ t ∈ r.triggers, t ∈ filt) := by
  unfold historyWhere
  cases filt with
  | nil => simp
  | cons f fs =>
    rw [if_pos (by simp)]
    simp [arrayOverlap_iff, and_assoc]

/-! ## Lemmas about the ordering step -/

theorem sortDesc_nil : sortDesc [] = [] := rfl

theorem sortDesc_cons (x : MoodRow) (xs : List MoodRow) :
    sortDesc (x :: xs) = insertDesc x (sortDesc xs) := rfl

theorem mem_insertDesc (r a : MoodRow) (l : List MoodRow) :
    a ∈ insertDesc r l ↔ a = r ∨ a ∈ l := by
  induction l with
  | nil => simp [insertDesc]
  | cons x xs ih =>
    unfold insertDesc
    by_cases h : r.created_at ≤ x.created_at
    · rw [if_pos h]
      simp only [List.mem_cons, ih]
      tauto
    · rw [if_neg h]
      simp only [List.mem_cons]

theorem mem_sortDesc (a : MoodRow) (l : List MoodRow) :
    a ∈ sortDesc l ↔ a ∈ l := by
  induction l with
  | nil => simp [sortDesc_nil]
  | cons x xs ih => simp [sortDesc_cons, mem_insertDesc, ih]

theorem pairwise_insertDesc (r : MoodRow) (l : List MoodRow)
    (h : l.Pairwise (fun a b => b.created_at ≤ a.created_at)) :
    (insertDesc r l).Pairwise (fun a b => b.created_at ≤ a.created_at) := by
  induction l with
  | nil => simp [insertDesc]
  | cons x xs ih =>
    rw [List.pairwise_cons] at h
    obtain ⟨hx, hxs⟩ := h
    unfold insertDesc
    by_cases hc : r.created_at ≤ x.created_at
    · rw [if_pos hc, List.pairwise_cons]
      refine ⟨?_, ih hxs⟩
      intro a ha
      rcases (mem_insertDesc r a xs).1 ha with rfl | ha'
      · exact hc
      · exact hx a ha'
    · rw [if_neg hc, List.pairwise_cons]
      push_neg at hc
      refine ⟨?_, List.pairwise_cons.2 ⟨hx, hxs⟩⟩
      intro a ha
      rcases List.mem_cons.1 ha with rfl | ha'
      · exact le_of_lt hc
      · exact le_trans (hx a ha') (le_of_lt hc)

theorem pairwise_sortDesc (l : List MoodRow) :
    (sortDesc l).Pairwise (fun a b => b.created_at ≤ a.created_at) := by
  induction l with
  | nil => simp [sortDesc_nil]
  | cons x xs ih => exact sortDesc_cons x xs ▸ pairwise_insertDesc x (sortDesc xs) ih

/-! ## Lemmas about the frequency table -/

theorem lookupD_nil (t : String) : lookupD [] t = 0 := rfl

theorem lookupD_bumpCount (m : List (String × Nat)) (s t : String) :
    lookupD (bumpCount m s) t = lookupD m t + (if t = s then 1 else 0) := by
  unfold bumpCount
  by_cases hmem : m.any (fun p => p.1 == s) = true
  · rw [if_pos hmem]
    unfold lookupD
    rw [List.find?_map]
    have hpred : ((fun p : String × Nat => p.1 == t) ∘
        (fun p : String × Nat => if p.1 == s then (p.1, p.2 + 1) else p)) =
        fun p : String × Nat => p.1 == t := by
      funext p
      by_cases hps : p.1 == s <;> simp [Function.comp, hps]
    rw [hpred]
    cases hfind : m.find? (fun p => p.1 == t) with
    | none =>
      have ht : t ≠ s := by
        intro rfl_ts
        subst rfl_ts
        rw [List.find?_eq_none] at hfind
        rw [List.any_eq_true] at hmem
        obtain ⟨p, hp, hps⟩ := hmem
        exact hfind p hp hps
      simp [ht]
    | some q =>
      have hq : q.1 = t := by
        have := List.find?_some hfind
        simpa using this
      by_cases hts : t = s
      · subst hts
        simp [Option.map_some, hq]
      · have : (q.1 == s) = false := by
          simp [hq]
          intro h
          exact hts h
        simp [Option.map_some, this, hts, hq]
  · rw [if_neg hmem]
    have habs : ∀ p ∈ m, ¬(p.1 == s) = true := by
      intro p hp hps
      exact hmem (List.any_eq_true.2 ⟨p, hp, hps⟩)
    unfold lookupD
    rw [List.find?_append]
    cases hfind : m.find? (fun p => p.1 == t) with
    | none =>
      by_cases hts : t = s
      · subst hts
        simp [List.find?]
      · have hst : (s == t) = false := by
          simp only [beq_eq_false_iff_ne, ne_eq]
          exact fun hh => hts hh.symm
        simp [List.find?, hst, hts]
    | some q =>
      have hq : q.1 = t := by
        have := List.find?_some hfind
        simpa using this
      have hts : t ≠ s := by
        intro h
        subst h
        exact habs q (List.mem_of_find?_eq_some hfind) (by simp [hq])
      simp [Option.or, hts]

theorem lookupD_foldl_bump (l : List String) (m : List (String × Nat))
    (t : String) :
    lookupD (l.foldl bumpCount m) t = lookupD m t + l.count t := by
  induction l generalizing m with
  | nil => simp
  | cons s ss ih =>
    rw [List.foldl_cons, ih, lookupD_bumpCount]
    by_cases h : t = s
    · subst h
      simp [List.count_cons]
      omega
    · have h' : ¬s = t := fun hh => h hh.symm
      simp [List.count_cons, h, h']


theorem lookupD_countsFrom (rows : List HistRow) (m : List (String × Nat))
    (t : String) :
    lookupD (rows.foldl (fun m r => r.triggers.foldl bumpCount m) m) t
      = lookupD m t + (rows.map (fun r => r.triggers.count t)).sum := by
  induction rows generalizing m with
  | nil => simp
  | cons r rs ih =>
    rw [List.foldl_cons, ih, lookupD_foldl_bump]
    simp only [List.map_cons, List.sum_cons]
    omega

theorem lookupD_triggerCounts (rows : List HistRow) (t : String) :
    lookupD (triggerCounts rows) t
      = (rows.map (fun r => r.triggers.count t)).sum := by
  unfold triggerCounts
  rw [lookupD_countsFrom]
  simp [lookupD_nil]

theorem keys_bumpCount (m : List (String × Nat)) (s t : String)
    (h : t ∈ (bumpCount m s).map Prod.fst) : t ∈ m.map Prod.fst ∨ t = s := by
  unfold bumpCount at h
  by_cases hmem : m.any (fun p => p.1 == s) = true
  · rw [if_pos hmem, List.map_map] at h
    left
    have hcomp : (Prod.fst ∘ fun p : String × Nat =>
        if p.1 == s then (p.1, p.2 + 1) else p) = Prod.fst := by
      funext p
      by_cases hp : p.1 = s <;> simp [hp]
    rwa [hcomp] at h
  · rw [if_neg hmem, List.map_append] at h
    rcases List.mem_append.1 h with h1 | h1
    · exact Or.inl h1
    · right
      simpa using h1

theorem keys_foldl_bump (l : List String) (m : List (String × Nat))
    (t : String) (h : t ∈ ((l.foldl bumpCount m).map Prod.fst)) :
    t ∈ m.map Prod.fst ∨ t ∈ l := by
  induction l generalizing m with
  | nil => exact Or.inl h
  | cons s ss ih =>
    rw [List.foldl_cons] at h
    rcases ih (bumpCount m s) h with h1 | h1
    · rcases keys_bumpCount m s t h1 with h2 | h2
      · exact Or.inl h2
      · exact Or.inr (by simp [h2])
    · exact Or.inr (List.mem_cons_of_mem _ h1)

theorem keys_triggerCounts (rows : List HistRow) (t : String)
    (h : t ∈ (triggerCounts rows).map Prod.fst) : ∃ r ∈ rows, t ∈ r.triggers := by
  suffices H : ∀ (rs : List HistRow) (m : List (String × Nat)),
      t ∈ ((rs.foldl (fun m r => r.triggers.foldl bumpCount m) m).map Prod.fst) →
      t ∈ m.map Prod.fst ∨ ∃ r ∈ rs, t ∈ r.triggers by
    rcases H rows [] h with h1 | h1
    · simp at h1
    · exact h1
  intro rs
  induction rs with
  | nil =>
    intro m hm
    exact Or.inl hm
  | cons r rest ih =>
    intro m hm
    rw [List.foldl_cons] at hm
    rcases ih _ hm with h1 | h1
    · rcases keys_foldl_bump r.triggers m t h1 with h2 | h2
      · exact Or.inl h2
      · exact Or.inr ⟨r, by simp, h2⟩
    · obtain ⟨r', hr', ht'⟩ := h1
      exact Or.inr ⟨r', List.mem_cons_of_mem _ hr', ht'⟩

theorem count_sum_eq_filter_length (rows : List HistRow) (t : String)
    (hnd : ∀ r ∈ rows, r.triggers.Nodup) :
    (rows.map (fun r => r.triggers.count t)).sum
      = (rows.filter (fun r => r.triggers.contains t)).length := by
  induction rows with
  | nil => simp
  | cons r rs ih =>
    have hr : r.triggers.Nodup := hnd r (by simp)
    have hrs : ∀ r' ∈ rs, r'.triggers.Nodup := fun r' h' =>
      hnd r' (List.mem_cons_of_mem _ h')
    rw [List.map_cons, List.sum_cons, List.filter_cons, ih hrs]
    by_cases hm : t ∈ r.triggers
    · rw [List.count_eq_one_of_mem hr hm, if_pos (by simpa using hm)]
      simp
      omega
    · rw [List.count_eq_zero_of_not_mem hm, if_neg (by simpa using hm)]
      simp

theorem filter_email_of_nodup (users : List UserRow) (e : String)
    (h : (users.map UserRow.email).Nodup) :
    (users.filter (fun u => u.email == e) = [] ∧ ∀ u ∈ users, u.email ≠ e) ∨
      ∃ u, users.filter (fun u => u.email == e) = [u] ∧ u ∈ users ∧
        u.email = e := by
  induction users with
  | nil =>
    left
    simp
  | cons v vs ih =>
    rw [List.map_cons, List.nodup_cons] at h
    obtain ⟨hv, hvs⟩ := h
    by_cases hve : v.email = e
    · right
      refine ⟨v, ?_, by simp, hve⟩
      rw [List.filter_cons, if_pos (by simpa using hve)]
      have hnil : vs.filter (fun u => u.email == e) = [] := by
        rw [List.filter_eq_nil_iff]
        intro u hu hue
        apply hv
        rw [hve, ← (by simpa using hue : u.email = e)]
        exact List.mem_map_of_mem UserRow.email hu
      rw [hnil]
    · rw [List.filter_cons, if_neg (by simpa using hve)]
      rcases ih hvs with ⟨hnil, hall⟩ | ⟨u, hu, hmem, hue⟩
      · left
        refine ⟨hnil, ?_⟩
        intro u hu
        rcases List.mem_cons.1 hu with rfl | h'
        · exact hve
        · exact hall u h'
      · right
        exact ⟨u, hu, List.mem_cons_of_mem _ hmem, hue⟩

set_option maxRecDepth 10000 in
theorem natRepr_digits_le365 :
    ∀ k : Nat, k < 366 → ((Nat.repr k).toList.all Char.isDigit) = true := by
  decide

theorem intToString_ofNat (k : Nat) : toString ((k : Int)) = Nat.repr k := rfl

/-! ## Quotes endpoints -/

/-- A quote object as served by either variant: `_id`, `content`, `author`. -/
structure Quote where
  _id : String
  content : String
  author : String
deriving DecidableEq, Repr

/-- JavaScript `mood.toLowerCase()` (implemented on the character list so
it is kernel-computable). -/
def jsToLower (s : String) : String :=
  ⟨s.data.map Char.toLower⟩

/-- Variant A's fixed mood→keyword table (`moodKeywords`). -/
def moodKeywords : List (String × String) :=
  [("happy", "inspirational"), ("sad", "life"), ("angry", "anger"),
    ("relaxed", "peace")]

/-- `moodKeywords[mood.toLowerCase()] || 'motivational'`. -/
def keywordFor (mood : String) : String :=
  ((moodKeywords.find? (fun p => p.1 == jsToLower mood)).map Prod.snd).getD
    "motivational"

/-- Responses of `GET /api/quotes`. -/
inductive QResp where
  | err (status : Nat) (message : String)
  | ok (quotes : List Quote)
deriving DecidableEq, Repr

/-- `GET /api/quotes`, variant A: forwards the keyword to the quotable
provider. `provider k` models the `results` field of the provider's JSON
response for tag `k` (`none` when the field is absent); the handler's own
logic is `if (!data.results || data.results.length === 0) → 404`. -/
def quotesA (provider : String → Option (List Quote)) (mood? : Option String) :
    QResp :=
  if !truthy mood? then .err 400 "Mood is required"
  else
    match provider (keywordFor (mood?.getD "")) with
    | none => .err 404 "No quotes found"
    | some results =>
      if results.length == 0 then .err 404 "No quotes found"
      else .ok results

/-- Variant B's in-process `staticQuotes` table. -/
def staticQuotes : List (String × List Quote) :=
  [("happy",
    [⟨"1", "Happiness depends upon ourselves.", "Aristotle"⟩,
      ⟨"2", "For every minute you are angry you lose sixty seconds of happiness.", "Ralph Waldo Emerson"⟩,
      ⟨"3", "The purpose of our lives is to be happy.", "Dalai Lama"⟩,
      ⟨"4", "Happiness is not something ready made. It comes from your own actions.", "Dalai Lama"⟩,
      ⟨"5", "Count your age by friends, not years. Count your life by smiles, not tears.", "John Lennon"⟩,
      ⟨"6", "Let us be grateful to the people who make us happy.", "Marcel Proust"⟩]),
   ("calm",
    [⟨"25", "Peace comes from within. Do not seek it without.", "Buddha"⟩,
      ⟨"26", "The nearer a man comes to a calm mind, the closer he is to strength.", "Marcus Aurelius"⟩,
      ⟨"27", "Calm mind brings inner strength and self-confidence.", "Dalai Lama"⟩,
      ⟨"28", "Silence is a source of great strength.", "Lao Tzu"⟩,
      ⟨"29", "Serenity is not freedom from the storm, but peace amid the storm.", "Unknown"⟩,
      ⟨"30", "In the midst of movement and chaos, keep stillness inside of you.", "Deepak Chopra"⟩]),
   ("neutral",
    [⟨"49", "Life is ten percent what happens to you and ninety percent how you respond to it.", "Charles R. Swindoll"⟩,
      ⟨"50", "Staying neutral doesn't mean you don't care—it means you’re letting balance lead.", "Unknown"⟩,
      ⟨"51", "Stillness speaks louder than noise.", "Eckhart Tolle"⟩,
      ⟨"52", "There is a calmness to a life lived in gratitude.", "Ralph H. Blum"⟩,
      ⟨"53", "Sometimes doing nothing is the best response.", "Unknown"⟩,
      ⟨"54", "Equanimity is the hallmark of spiritual maturity.", "Eknath Easwaran"⟩]),
   ("worried",
    [⟨"31", "You don’t have to control your thoughts. You just have to stop letting them control you.", "Dan Millman"⟩,
      ⟨"32", "Nothing diminishes anxiety faster than action.", "Walter Anderson"⟩,
      ⟨"33", "Worrying doesn’t take away tomorrow’s troubles, it takes away today’s peace.", "Randy Armstrong"⟩,
      ⟨"34", "Anxiety does not empty tomorrow of its sorrows, but only empties today of its strength.", "Charles Spurgeon"⟩,
      ⟨"35", "You are stronger than you think.", "Unknown"⟩,
      ⟨"36", "Smile, breathe, and go slowly.", "Thich Nhat Hanh"⟩]),
   ("sad",
    [⟨"7", "Tears come from the heart and not from the brain.", "Leonardo da Vinci"⟩,
      ⟨"8", "Sadness flies away on the wings of time.", "Jean de La Fontaine"⟩,
      ⟨"9", "Every human walks around with a certain kind of sadness.", "Unknown"⟩,
      ⟨"10", "You cannot protect yourself from sadness without protecting yourself from happiness.", "Jonathan Safran Foer"⟩,
      ⟨"11", "Crying is all right in its way while it lasts.", "C.S. Lewis"⟩,
      ⟨"12", "The good times of today are the sad thoughts of tomorrow.", "Bob Marley"⟩]),
   ("frustrated",
    [⟨"55", "Frustration, although quite painful at times, is a very positive and essential part of success.", "Bo Bennett"⟩,
      ⟨"56", "Sometimes things have to go wrong before they can go right.", "Sherrilyn Kenyon"⟩,
      ⟨"57", "Out of difficulties grow miracles.", "Jean de La Bruyère"⟩,
      ⟨"58", "Frustration is a sign that you’re trying to make things better.", "Unknown"⟩,
      ⟨"59", "Patience is the antidote to frustration.", "Unknown"⟩,
      ⟨"60", "It’s okay to be frustrated. It’s not okay to give up.", "Unknown"⟩]),
   ("angry",
    [⟨"13", "Speak when you are angry and you will make the best speech you will ever regret.", "Ambrose Bierce"⟩,
      ⟨"14", "Anger is a short madness.", "Horace"⟩,
      ⟨"15", "Never go to bed mad. Stay up and fight.", "Phyllis Diller"⟩,
      ⟨"16", "Anger is an acid that can do more harm to the vessel in which it is stored.", "Mark Twain"⟩,
      ⟨"17", "Holding on to anger is like drinking poison and expecting the other person to die.", "Buddha"⟩,
      ⟨"18", "For every minute you remain angry, you give up sixty seconds of peace of mind.", "Ralph Waldo Emerson"⟩]),
   ("loved",
    [⟨"61", "Being deeply loved by someone gives you strength, while loving someone deeply gives you courage.", "Lao Tzu"⟩,
      ⟨"62", "Where there is love there is life.", "Mahatma Gandhi"⟩,
      ⟨"63", "Love cures people—both the ones who give it and the ones who receive it.", "Karl A. Menninger"⟩,
      ⟨"64", "To love and be loved is to feel the sun from both sides.", "David Viscott"⟩,
      ⟨"65", "The best thing to hold onto in life is each other.", "Audrey Hepburn"⟩,
      ⟨"66", "You are loved more than you will ever know.", "Unknown"⟩])]

/-- `staticQuotes[key] || []`. -/
def staticQuotesLookup (key : String) : List Quote :=
  ((staticQuotes.find? (fun p => p.1 == key)).map Prod.snd).getD []

/-- `GET /api/quotes`, variant B: serves the static table, lowercasing the
mood; unknown moods get the empty list, never a 404. -/
def quotesB (mood? : Option String) : QResp :=
  if !truthy mood? then .err 400 "Mood is required"
  else .ok (staticQuotesLookup (jsToLower (mood?.getD "")))

/-! ## Handler-level lemmas -/

theorem truthy_iff (o : Option String) :
    truthy o = true ↔ ∃ s, o = some s ∧ s ≠ "" := by
  cases o <;> simp [truthy]

theorem historyHandler_eq_ok (st : List MoodRow) (now : Int) (e d : String)
    (trig? : Option String) (n : Int)
    (he : e ≠ "") (hd : d ≠ "") (hparse : jsParseInt d = some n)
    (h1 : 1 ≤ n) (h2 : n ≤ 365) :
    historyHandler st now (some e) (some d) trig? =
      .ok (historyQuery st now e n (parseTriggersParam trig?)).1
        (historyQuery st now e n (parseTriggersParam trig?)).2 := by
  unfold historyHandler
  rw [if_neg (by simp [truthy, he, hd])]
  simp only [Option.getD_some, hparse]
  rw [if_neg (by simp; omega)]

theorem historyHandler_ok_inv (st : List MoodRow) (now : Int)
    (e? d? t? : Option String) (h : List HistRow)
    (c : List (String × Nat))
    (hok : historyHandler st now e? d? t? = .ok h c) :
    ∃ e d n, e? = some e ∧ e ≠ "" ∧ d? = some d ∧ d ≠ "" ∧
      jsParseInt d = some n ∧ 1 ≤ n ∧ n ≤ 365 ∧
      h = (historyQuery st now e n (parseTriggersParam t?)).1 ∧
      c = (historyQuery st now e n (parseTriggersParam t?)).2 := by
  unfold historyHandler at hok
  by_cases hc1 : (!truthy e? || !truthy d?) = true
  · rw [if_pos hc1] at hok
    exact HResp.noConfusion hok
  · rw [if_neg hc1] at hok
    have hte : truthy e? = true := by
      cases h1 : truthy e?
      · exact absurd (by simp [h1]) hc1
      · rfl
    have htd : truthy d? = true := by
      cases h1 : truthy d?
      · exact absurd (by simp [h1]) hc1
      · rfl
    obtain ⟨e, he?, hene⟩ := (truthy_iff e?).1 hte
    obtain ⟨d, hd?, hdne⟩ := (truthy_iff d?).1 htd
    subst he?
    subst hd?
    simp only [Option.getD_some] at hok
    cases hparse : jsParseInt d with
    | none =>
      rw [hparse] at hok
      exact HResp.noConfusion hok
    | some n =>
      rw [hparse] at hok
      simp only [] at hok
      by_cases hle : n ≤ 0
      · rw [if_pos (by simp [hle])] at hok
        exact HResp.noConfusion hok
      · by_cases hgt : n > 365
        · rw [if_pos (by simp [hgt])] at hok
          exact HResp.noConfusion hok
        · rw [if_neg (by simp [hle, hgt])] at hok
          obtain ⟨hh, hc⟩ := HResp.ok.inj hok
          exact ⟨e, d, n, rfl, hene, rfl, hdne, hparse, by omega, by omega,
            hh.symm, hc.symm⟩

/-! ## Claim theorems -/

/-- **C1.** For every history query with a non-empty owner and a valid
window `N` (`1 ≤ N ≤ 365`), an entry is returned if and only if it is the
projection of a stored row whose owner email equals the queried email,
whose timestamp satisfies `created_at ≥ now - N days`, and which either
faces an empty trigger filter or shares at least one trigger with the
filter set (logical OR across filter triggers). -/
theorem history_filter_semantics (st : List MoodRow) (now : Int)
    (email : String) (he : email ≠ "") (N : Int) (h1 : 1 ≤ N) (h2 : N ≤ 365)
    (filt : List String) (r : MoodRow) :
    projRow r ∈ (historyQuery st now email N filt).1 ↔
      ∃ s ∈ st, projRow s = projRow r ∧ s.email = email ∧
        now - N * ticksPerDay ≤ s.created_at ∧
        (filt = [] ∨ ∃ t ∈ s.triggers, t ∈ filt) := by
  simp only [historyQuery, List.mem_map]
  constructor
  · rintro ⟨s, hs, hps⟩
    rw [mem_sortDesc, List.mem_filter] at hs
    obtain ⟨hsmem, hw⟩ := hs
    obtain ⟨he', hc', hf'⟩ := (historyWhere_iff _ _ _ _).1 hw
    exact ⟨s, hsmem, hps, he', hc', hf'⟩
  · rintro ⟨s, hsmem, hps, he', hc', hf'⟩
    refine ⟨s, ?_, hps⟩
    rw [mem_sortDesc, List.mem_filter]
    exact ⟨hsmem, (historyWhere_iff _ _ _ _).2 ⟨he', hc', hf'⟩⟩

/-- Witness for C1 at a concrete store and query. -/
theorem history_filter_semantics_witness :
    projRow ⟨"a@x.com", "happy", ["work"], 10⟩ ∈
      (historyQuery [⟨"a@x.com", "happy", ["work"], 10⟩] 10 "a@x.com" 7
        []).1 := by
  have h := history_filter_semantics [⟨"a@x.com", "happy", ["work"], 10⟩] 10
    "a@x.com" (by decide) 7 (by decide) (by decide) []
    ⟨"a@x.com", "happy", ["work"], 10⟩
  exact h.mpr ⟨⟨"a@x.com", "happy", ["work"], 10⟩, by simp, rfl, rfl,
    by decide, Or.inl rfl⟩

/-- **C2 counterexample.** A stored entry whose trigger array repeats
`"work"` is counted twice by the frequency loop, so the table's value (2)
differs from the number of returned entries whose trigger set contains
`"work"` (1): the claim as stated is false on the code. -/
theorem triggerCounts_entrycount_counterexample :
    lookupD (historyQuery [⟨"a@x.com", "sad", ["work", "work"], 5⟩] 5
        "a@x.com" 1 []).2 "work" = 2 ∧
    ((historyQuery [⟨"a@x.com", "sad", ["work", "work"], 5⟩] 5
        "a@x.com" 1 []).1.filter (fun h => h.triggers.contains "work")).length
      = 1 ∧ (2 : Nat) ≠ 1 := by
  decide

/-- **C2 (amended).** The frequency table maps each trigger `T` to the
total number of occurrences of `T` across the returned entries' trigger
arrays (which equals the count of returned entries containing `T` whenever
no entry's array repeats a trigger), contains no key absent from the
returned entries' triggers, is computed only from the entries that passed
the date/trigger filter, and an empty match yields an empty list and an
empty table rather than an error. -/
theorem triggerCounts_occurrence_semantics (st : List MoodRow) (now : Int)
    (email : String) (N : Int) (filt : List String) :
    (∀ t, lookupD (historyQuery st now email N filt).2 t =
        ((historyQuery st now email N filt).1.map
          (fun r => r.triggers.count t)).sum)
    ∧ (∀ t, t ∈ ((historyQuery st now email N filt).2.map Prod.fst) →
        ∃ r ∈ (historyQuery st now email N filt).1, t ∈ r.triggers)
    ∧ ((∀ r ∈ (historyQuery st now email N filt).1, r.triggers.Nodup) →
        ∀ t, lookupD (historyQuery st now email N filt).2 t =
          ((historyQuery st now email N filt).1.filter
            (fun r => r.triggers.contains t)).length)
    ∧ (st.filter (historyWhere email (now - N * ticksPerDay) filt) = [] →
        historyQuery st now email N filt = ([], [])) := by
  have hq2 : (historyQuery st now email N filt).2 =
      triggerCounts (historyQuery st now email N filt).1 := rfl
  refine ⟨?_, ?_, ?_, ?_⟩
  · intro t
    rw [hq2, lookupD_triggerCounts]
  · intro t ht
    rw [hq2] at ht
    exact keys_triggerCounts _ t ht
  · intro hnd t
    rw [hq2, lookupD_triggerCounts, count_sum_eq_filter_length _ t hnd]
  · intro hfil
    simp only [historyQuery, hfil, sortDesc_nil, List.map_nil]
    rfl

/-- Witness for C2 (amended) at a concrete store and query. -/
theorem triggerCounts_occurrence_semantics_witness :
    lookupD (historyQuery [⟨"a@x.com", "sad", ["work", "sleep"], 5⟩] 5
        "a@x.com" 1 []).2 "work" =
      (((historyQuery [⟨"a@x.com", "sad", ["work", "sleep"], 5⟩] 5
        "a@x.com" 1 []).1.map (fun r => r.triggers.count "work")).sum) :=
  (triggerCounts_occurrence_semantics
    [⟨"a@x.com", "sad", ["work", "sleep"], 5⟩] 5 "a@x.com" 1 []).1 "work"

/-- **C3.** The lookback window must parse to an integer `N` with
`1 ≤ N ≤ 365`: an unparsable `days`, or any parsed value outside the
range, is rejected with 400 before the store is consulted (the response
does not depend on the store), while values in range reach the query and
yield a 200 result. -/
theorem history_days_validation (st : List MoodRow) (now : Int) (e d : String)
    (trig? : Option String) (he : e ≠ "") (hd : d ≠ "") :
    (jsParseInt d = none →
      historyHandler st now (some e) (some d) trig? =
        .err 400 "Invalid days parameter. Must be between 1 and 365." ∧
      ∀ st', historyHandler st' now (some e) (some d) trig? =
        historyHandler st now (some e) (some d) trig?)
    ∧ (∀ n, jsParseInt d = some n → (n ≤ 0 ∨ n > 365) →
      historyHandler st now (some e) (some d) trig? =
        .err 400 "Invalid days parameter. Must be between 1 and 365." ∧
      ∀ st', historyHandler st' now (some e) (some d) trig? =
        historyHandler st now (some e) (some d) trig?)
    ∧ (∀ n, jsParseInt d = some n → 1 ≤ n → n ≤ 365 →
      ∃ h c, historyHandler st now (some e) (some d) trig? = .ok h c) := by
  refine ⟨?_, ?_, ?_⟩
  · intro hparse
    have herr : ∀ st'' : List MoodRow,
        historyHandler st'' now (some e) (some d) trig? =
          .err 400 "Invalid days parameter. Must be between 1 and 365." := by
      intro st''
      unfold historyHandler
      rw [if_neg (by simp [truthy, he, hd])]
      simp only [Option.getD_some, hparse]
    exact ⟨herr st, fun st' => (herr st').trans (herr st).symm⟩
  · intro n hparse hout
    have herr : ∀ st'' : List MoodRow,
        historyHandler st'' now (some e) (some d) trig? =
          .err 400 "Invalid days parameter. Must be between 1 and 365." := by
      intro st''
      unfold historyHandler
      rw [if_neg (by simp [truthy, he, hd])]
      simp only [Option.getD_some, hparse]
      rw [if_pos (by rcases hout with h | h <;> simp [h])]
    exact ⟨herr st, fun st' => (herr st').trans (herr st).symm⟩
  · intro n hparse h1 h2
    exact ⟨_, _, historyHandler_eq_ok st now e d trig? n he hd hparse h1 h2⟩

/-- Witness for C3: `days` of `0`, `-1`, `366` are rejected, `1` and `365`
are accepted. -/
theorem history_days_validation_witness :
    (historyHandler [] 0 (some "a") (some "0") none =
      .err 400 "Invalid days parameter. Must be between 1 and 365.") ∧
    (historyHandler [] 0 (some "a") (some "-1") none =
      .err 400 "Invalid days parameter. Must be between 1 and 365.") ∧
    (historyHandler [] 0 (some "a") (some "366") none =
      .err 400 "Invalid days parameter. Must be between 1 and 365.") ∧
    (∃ h c, historyHandler [] 0 (some "a") (some "1") none = .ok h c) ∧
    (∃ h c, historyHandler [] 0 (some "a") (some "365") none = .ok h c) := by
  refine ⟨?_, ?_, ?_, ?_, ?_⟩
  · exact (((history_days_validation [] 0 "a" "0" none (by decide)
      (by decide)).2.1) 0 (by decide) (Or.inl (by decide))).1
  · exact (((history_days_validation [] 0 "a" "-1" none (by decide)
      (by decide)).2.1) (-1) (by decide) (Or.inl (by decide))).1
  · exact (((history_days_validation [] 0 "a" "366" none (by decide)
      (by decide)).2.1) 366 (by decide) (Or.inr (by decide))).1
  · exact ((history_days_validation [] 0 "a" "1" none (by decide)
      (by decide)).2.2) 1 (by decide) (by decide) (by decide)
  · exact ((history_days_validation [] 0 "a" "365" none (by decide)
      (by decide)).2.2) 365 (by decide) (by decide) (by decide)

/-- **C4 (code bug exhibited).** In variant B the signup existence check
reads the `users` table while registration inserts into `user1` (the table
login consults), so a second signup with an already-registered email is
accepted with 201 and a duplicate credential row is stored, instead of the
Conflict response: starting from empty tables, two signups for
`a@x.com` both return 201 and `user1` ends with two rows for that email. -/
theorem signupB_duplicate_not_conflict :
    (signupB ⟨[], []⟩ (some "a@x.com") (some "pw1")).1 =
      ⟨201, "User registered successfully"⟩ ∧
    (signupB (signupB ⟨[], []⟩ (some "a@x.com") (some "pw1")).2
        (some "a@x.com") (some "pw2")).1 =
      ⟨201, "User registered successfully"⟩ ∧
    (signupB (signupB ⟨[], []⟩ (some "a@x.com") (some "pw1")).2
        (some "a@x.com") (some "pw2")).2.user1 =
      [⟨"a@x.com", "pw1"⟩, ⟨"a@x.com", "pw2"⟩] := by
  decide

/-- **C5.** With unique stored emails and non-empty credentials, login is
NotFound (400) iff no record matches the email, Unauthorized (401) iff a
record matches but its stored secret differs from the supplied one (exact
string comparison), and Authenticated (200) iff the exact email/password
pair is stored; both variants run this same check (variant A on `users`,
variant B on `user1`). -/
theorem login_outcomes (records : List UserRow) (e p : String)
    (hnd : (records.map UserRow.email).Nodup) (he : e ≠ "") (hp : p ≠ "") :
    (loginCheck records (some e) (some p) =
        ⟨400, "User not found. Please sign up first."⟩ ↔
      ∀ u ∈ records, u.email ≠ e)
    ∧ (loginCheck records (some e) (some p) = ⟨401, "Incorrect password"⟩ ↔
      ∃ u ∈ records, u.email = e ∧ u.password ≠ p)
    ∧ (loginCheck records (some e) (some p) = ⟨200, "Login successful"⟩ ↔
      (⟨e, p⟩ : UserRow) ∈ records)
    ∧ (∀ users, loginA users (some e) (some p) =
        loginCheck users (some e) (some p))
    ∧ (∀ db : DbB, loginB db (some e) (some p) =
        loginCheck db.user1 (some e) (some p)) := by
  rcases filter_email_of_nodup records e hnd with ⟨hfil, hall⟩ |
    ⟨u, hfil, hmem, hue⟩
  · have hres : loginCheck records (some e) (some p) =
        ⟨400, "User not found. Please sign up first."⟩ := by
      unfold loginCheck
      rw [if_neg (by simp [truthy, he, hp])]
      simp only [Option.getD_some, hfil]
      rfl
    refine ⟨iff_of_true hres hall, ?_, ?_, fun _ => rfl, fun _ => rfl⟩
    · refine iff_of_false (fun h => absurd (hres.symm.trans h) (by simp)) ?_
      rintro ⟨u, hu, hue', -⟩
      exact (hall u hu hue').elim
    · refine iff_of_false (fun h => absurd (hres.symm.trans h) (by simp)) ?_
      intro hmem'
      exact (hall _ hmem' rfl).elim
  · have huniq : ∀ v ∈ records, v.email = e → v = u := by
      intro v hv hve
      have hvf : v ∈ records.filter (fun w => w.email == e) :=
        List.mem_filter.2 ⟨hv, by simp [hve]⟩
      rw [hfil] at hvf
      simpa using hvf
    by_cases hpw : u.password = p
    · have hres : loginCheck records (some e) (some p) =
          ⟨200, "Login successful"⟩ := by
        unfold loginCheck
        rw [if_neg (by simp [truthy, he, hp])]
        simp only [Option.getD_some, hfil]
        simp [hpw]
      have hup : (⟨e, p⟩ : UserRow) = u := by
        cases u with
        | mk a b => simp_all
      refine ⟨?_, ?_, iff_of_true hres (hup ▸ hmem), fun _ => rfl,
        fun _ => rfl⟩
      · refine iff_of_false (fun h => absurd (hres.symm.trans h) (by simp)) ?_
        intro hall'
        exact (hall' u hmem hue).elim
      · refine iff_of_false (fun h => absurd (hres.symm.trans h) (by simp)) ?_
        rintro ⟨v, hv, hve, hvp⟩
        exact hvp (huniq v hv hve ▸ hpw)
    · have hres : loginCheck records (some e) (some p) =
          ⟨401, "Incorrect password"⟩ := by
        unfold loginCheck
        rw [if_neg (by simp [truthy, he, hp])]
        simp only [Option.getD_some, hfil]
        simp [hpw]
      refine ⟨?_, iff_of_true hres ⟨u, hmem, hue, hpw⟩, ?_, fun _ => rfl,
        fun _ => rfl⟩
      · refine iff_of_false (fun h => absurd (hres.symm.trans h) (by simp)) ?_
        intro hall'
        exact (hall' u hmem hue).elim
      · refine iff_of_false (fun h => absurd (hres.symm.trans h) (by simp)) ?_
        intro hmem'
        have := huniq ⟨e, p⟩ hmem' rfl
        exact hpw (by rw [← this])

/-- Witness for C5: a matching pair authenticates. -/
theorem login_outcomes_witness :
    loginCheck [⟨"a@x.com", "pw"⟩] (some "a@x.com") (some "pw") =
      ⟨200, "Login successful"⟩ :=
  ((login_outcomes [⟨"a@x.com", "pw"⟩] "a@x.com" "pw" (by decide) (by decide)
    (by decide)).2.2.1).mpr (by decide)

/-- **C6.** Every successful history response is ordered by created
timestamp descending (each entry's timestamp is ≥ the next one's), and
each returned record is the `(mood, triggers, created_at)` projection of a
stored row — the owner email is not echoed back (`HistRow` has no email
field). -/
theorem history_ordering_projection (st : List MoodRow) (now : Int)
    (e? d? t? : Option String) (h : List HistRow) (c : List (String × Nat))
    (hok : historyHandler st now e? d? t? = .ok h c) :
    h.Pairwise (fun a b => b.created_at ≤ a.created_at) ∧
    ∀ x ∈ h, ∃ r ∈ st, x = projRow r := by
  obtain ⟨e, d, n, -, -, -, -, -, -, -, hh, -⟩ :=
    historyHandler_ok_inv st now e? d? t? h c hok
  subst hh
  constructor
  · simp only [historyQuery]
    refine List.Pairwise.map _ ?_ (pairwise_sortDesc _)
    intro a b hab
    exact hab
  · intro x hx
    simp only [historyQuery, List.mem_map] at hx
    obtain ⟨r, hr, hxr⟩ := hx
    rw [mem_sortDesc, List.mem_filter] at hr
    exact ⟨r, hr.1, hxr.symm⟩

/-- Witness for C6 at a concrete store: two entries come back
newest-first, without the owner email. -/
theorem history_ordering_projection_witness :
    (([⟨"sad", ["work"], 9⟩, ⟨"happy", ["work"], 3⟩] : List HistRow).Pairwise
      (fun a b => b.created_at ≤ a.created_at)) ∧
    ∀ x ∈ ([⟨"sad", ["work"], 9⟩, ⟨"happy", ["work"], 3⟩] : List HistRow),
      ∃ r ∈ [(⟨"a@x.com", "happy", ["work"], 3⟩ : MoodRow),
        ⟨"a@x.com", "sad", ["work"], 9⟩], x = projRow r :=
  history_ordering_projection
    [⟨"a@x.com", "happy", ["work"], 3⟩, ⟨"a@x.com", "sad", ["work"], 9⟩] 10
    (some "a@x.com") (some "7") none
    [⟨"sad", ["work"], 9⟩, ⟨"happy", ["work"], 3⟩] [("work", 2)] (by decide)

/-- **C7.** The trigger filter is the comma-split of the input with each
piece trimmed and empty strings discarded; an absent input parses to the
empty filter, and any input parsing to the empty filter leaves the query
unrestricted: the handler behaves exactly as with no trigger parameter. -/
theorem trigger_filter_parsing (s : String) :
    (parseTriggersParam none = [])
    ∧ (∀ tok, tok ∈ parseTriggersParam (some s) ↔
        tok ≠ "" ∧ ∃ piece ∈ jsSplitComma s, jsTrim piece = tok)
    ∧ (parseTriggersParam (some s) = [] →
        ∀ st now e? d?, historyHandler st now e? d? (some s) =
          historyHandler st now e? d? none) := by
  refine ⟨rfl, ?_, ?_⟩
  · intro tok
    have heq : parseTriggersParam (some s) =
        if s = "" then []
        else ((jsSplitComma s).map jsTrim).filter (fun t => t.length > 0) :=
      rfl
    rw [heq]
    by_cases hs : s = ""
    · rw [if_pos hs]
      subst hs
      constructor
      · intro h
        exact absurd h (List.not_mem_nil tok)
      · rintro ⟨htok, piece, hp, htr⟩
        have hpe : piece = "" := by
          have : jsSplitComma "" = [""] := rfl
          rw [this] at hp
          simpa using hp
        subst hpe
        exact (htok (htr.symm.trans rfl)).elim
    · rw [if_neg hs]
      rw [List.mem_filter, List.mem_map]
      constructor
      · rintro ⟨⟨piece, hp, htr⟩, hlen⟩
        refine ⟨?_, piece, hp, htr⟩
        intro hemp
        rw [hemp] at hlen
        simp at hlen
      · rintro ⟨htok, piece, hp, htr⟩
        refine ⟨⟨piece, hp, htr⟩, ?_⟩
        simp only [decide_eq_true_eq]
        by_contra hlen
        apply htok
        have hlz : tok.length = 0 := by omega
        cases tok with
        | mk cs =>
          cases cs with
          | nil => rfl
          | cons c rest => simp [String.length] at hlz
  · intro hparse st now e? d?
    unfold historyHandler
    rw [hparse]
    rfl

/-- Witness for C7: `" work, ,sleep"` parses to the trimmed non-empty
pieces, so `"work"` is in the filter. -/
theorem trigger_filter_parsing_witness :
    "work" ∈ parseTriggersParam (some " work, ,sleep") :=
  ((trigger_filter_parsing " work, ,sleep").2.1 "work").mpr
    ⟨by decide, " work", by decide, by decide⟩

/-- **C8.** Saving a mood requires truthy `email` and `mood` (a missing or
empty one yields 400 with the store untouched); `triggers` defaults to the
empty list when omitted, and on success the entry is appended with the
server-assigned timestamp `now` and 201 is returned. -/
theorem saveMood_validation_persistence (moods : List MoodRow) (now : Int)
    (email? mood? : Option String) (triggers? : Option (List String)) :
    ((truthy email? = false ∨ truthy mood? = false) →
      saveMood moods now email? mood? triggers? =
        (⟨400, "Email and mood are required"⟩, moods))
    ∧ (∀ e m, email? = some e → mood? = some m → e ≠ "" → m ≠ "" →
      ∃ row : MoodRow,
        saveMood moods now email? mood? triggers? =
          (⟨201, "Mood saved successfully"⟩, moods ++ [row]) ∧
        row.email = e ∧ row.mood = m ∧ row.created_at = now ∧
        row.triggers = triggers?.getD [] ∧
        (triggers? = none → row.triggers = [])) := by
  constructor
  · intro hfalsy
    unfold saveMood
    rw [if_pos (by rcases hfalsy with h | h <;> simp [h])]
  · intro e m hee hmm hne hnm
    subst hee
    subst hmm
    refine ⟨⟨e, m, triggers?.getD [], now⟩, ?_, rfl, rfl, rfl, rfl, ?_⟩
    · unfold saveMood
      rw [if_neg (by simp [truthy, hne, hnm])]
      rfl
    · intro ht
      rw [ht]
      rfl

/-- Witness for C8: a concrete valid save appends the entry, and a missing
mood is rejected. -/
theorem saveMood_validation_persistence_witness :
    (∃ row : MoodRow,
      saveMood [] 42 (some "a@x.com") (some "happy") none =
        (⟨201, "Mood saved successfully"⟩, [] ++ [row]) ∧
      row.email = "a@x.com" ∧ row.mood = "happy" ∧ row.created_at = 42 ∧
      row.triggers = (none : Option (List String)).getD [] ∧
      ((none : Option (List String)) = none → row.triggers = [])) ∧
    saveMood [] 42 (some "a@x.com") none (some ["work"]) =
      (⟨400, "Email and mood are required"⟩, []) :=
  ⟨(saveMood_validation_persistence [] 42 (some "a@x.com") (some "happy")
      none).2 "a@x.com" "happy" rfl rfl (by decide) (by decide),
    (saveMood_validation_persistence [] 42 (some "a@x.com") none
      (some ["work"])).1 (Or.inr rfl)⟩

/-- **C9.** A missing (or empty, hence falsy) mood yields 400 on the quotes
endpoint in both variants; the mood is matched case-insensitively against
the fixed table; variant A returns 404 exactly when the provider yields no
results and otherwise relays them with 200; variant B never returns an
error for a present mood and serves the static table, with the empty list
for unknown moods. -/
theorem quotes_endpoint_behavior (provider : String → Option (List Quote))
    (m m2 : String) (hm : m ≠ "") (hm2 : m2 ≠ "")
    (hml : jsToLower m = jsToLower m2) :
    (quotesA provider none = .err 400 "Mood is required")
    ∧ (quotesB none = .err 400 "Mood is required")
    ∧ (quotesA provider (some "") = .err 400 "Mood is required")
    ∧ (quotesB (some "") = .err 400 "Mood is required")
    ∧ ((provider (keywordFor m) = none ∨ provider (keywordFor m) = some []) →
        quotesA provider (some m) = .err 404 "No quotes found")
    ∧ (∀ qs, provider (keywordFor m) = some qs → qs ≠ [] →
        quotesA provider (some m) = .ok qs)
    ∧ (quotesB (some m) = .ok (staticQuotesLookup (jsToLower m)))
    ∧ (∀ status msg, quotesB (some m) ≠ .err status msg)
    ∧ (staticQuotes.find? (fun p => p.1 == jsToLower m) = none →
        quotesB (some m) = .ok [])
    ∧ (quotesB (some m) = quotesB (some m2))
    ∧ (quotesA provider (some m) = quotesA provider (some m2)) := by
  have hB : quotesB (some m) = .ok (staticQuotesLookup (jsToLower m)) := by
    unfold quotesB
    rw [if_neg (by simp [truthy, hm])]
    rfl
  have hB2 : quotesB (some m2) = .ok (staticQuotesLookup (jsToLower m2)) := by
    unfold quotesB
    rw [if_neg (by simp [truthy, hm2])]
    rfl
  refine ⟨rfl, rfl, rfl, rfl, ?_, ?_, hB, ?_, ?_, ?_, ?_⟩
  · intro hp
    unfold quotesA
    rw [if_neg (by simp [truthy, hm])]
    simp only [Option.getD_some]
    rcases hp with hp | hp
    · rw [hp]
    · rw [hp]
      rfl
  · intro qs hp hqs
    unfold quotesA
    rw [if_neg (by simp [truthy, hm])]
    simp only [Option.getD_some]
    rw [hp]
    have hlen : ¬(qs.length == 0) = true := by
      simp only [beq_iff_eq, List.length_eq_zero]
      exact hqs
    show (if (qs.length == 0) = true then QResp.err 404 "No quotes found"
      else QResp.ok qs) = QResp.ok qs
    rw [if_neg hlen]
  · intro status msg hcontra
    rw [hB] at hcontra
    exact QResp.noConfusion hcontra
  · intro hfind
    rw [hB]
    unfold staticQuotesLookup
    rw [hfind]
    rfl
  · rw [hB, hB2, hml]
  · unfold quotesA
    rw [if_neg (by simp [truthy, hm]), if_neg (by simp [truthy, hm2])]
    simp only [Option.getD_some]
    unfold keywordFor
    rw [hml]

/-- Witness for C9: the mood is matched case-insensitively, and with a
provider returning nothing variant A answers 404. -/
theorem quotes_endpoint_behavior_witness :
    quotesB (some "HAPPY") = quotesB (some "happy") ∧
    quotesA (fun _ => none) (some "HAPPY") = .err 404 "No quotes found" :=
  ⟨(quotes_endpoint_behavior (fun _ => none) "HAPPY" "happy" (by decide)
      (by decide) (by decide)).2.2.2.2.2.2.2.2.2.1,
    (quotes_endpoint_behavior (fun _ => none) "HAPPY" "happy" (by decide)
      (by decide) (by decide)).2.2.2.2.1 (Or.inl rfl)⟩

/-- **C10.** Whenever the history handler reaches query construction, the
interpolated day count is a `parseInt` result that passed the not-NaN,
`> 0` and `≤ 365` checks, so the `INTERVAL` literal is `"k days"` for an
integer `1 ≤ k ≤ 365` whose decimal rendering consists of digit characters
only — the `days` request parameter can never inject arbitrary text into
the SQL string. -/
theorem interval_interpolation_safe (st : List MoodRow) (now : Int)
    (e? d? t? : Option String) (h : List HistRow) (c : List (String × Nat))
    (hok : historyHandler st now e? d? t? = .ok h c) :
    ∃ d k, d? = some d ∧ jsParseInt d = some ((k : Nat) : Int) ∧
      1 ≤ k ∧ k ≤ 365 ∧
      intervalLiteral ((k : Nat) : Int) = Nat.repr k ++ " days" ∧
      ((Nat.repr k).toList.all Char.isDigit) = true := by
  obtain ⟨e, d, n, -, -, hd?, -, hparse, h1, h2, -, -⟩ :=
    historyHandler_ok_inv st now e? d? t? h c hok
  have hn : ((n.toNat : Nat) : Int) = n := Int.toNat_of_nonneg (by omega)
  refine ⟨d, n.toNat, hd?, ?_, by omega, by omega, ?_, ?_⟩
  · rw [hn]
    exact hparse
  · unfold intervalLiteral
    rw [intToString_ofNat]
  · exact natRepr_digits_le365 n.toNat (by omega)

/-- Witness for C10 at a concrete accepted request. -/
theorem interval_interpolation_safe_witness :
    ∃ d k, (some "42" : Option String) = some d ∧
      jsParseInt d = some ((k : Nat) : Int) ∧ 1 ≤ k ∧ k ≤ 365 ∧
      intervalLiteral ((k : Nat) : Int) = Nat.repr k ++ " days" ∧
      ((Nat.repr k).toList.all Char.isDigit) = true :=
  interval_interpolation_safe [] 0 (some "a") (some "42") none [] []
    (by decide)
